import Mathlib

/-!
Verification of the heightmap-navmesh rendering engine against its
natural-language specification.  The Rust source is shallowly embedded:
the staged host/GPU buffer (`src/resources/buffer.rs`), the debug line
pipeline (`src/pipelines/debug.rs`), the glTF model loader
(`src/resources/model.rs`) and the frame orchestrator (`src/game.rs`)
become executable Lean definitions, and the spec's claims become theorems
about those definitions.  GPU-side effects (buffer reallocations, byte
transfers, draw/submit/present calls) are recorded as explicit event
lists, so claims about "no transfer" or "exactly one reallocation" are
statements about those lists.
-/

/-! ## Staged buffer (`src/resources/buffer.rs`)

`CpuBuffer<T>` holds a host `Vec<T>` (`data`) mirrored by a GPU
allocation.  We model the GPU allocation as its byte contents
(`gpu : List Nat`, one entry per byte) and parametrise over the record
serialisation `ser : α → List Nat` together with the record byte size
`tsize` (`size_of::<T>()`); the hypothesis `SerSized` below states that
every record serialises to exactly `tsize` bytes, as `bytemuck`
guarantees for a `Pod` type. -/

structure CpuBuffer (α : Type) where
  gpu : List Nat
  data : List α
  deriving DecidableEq

/-- GPU-side effects performed when a batch closes: `realloc contents`
models `device.create_buffer_init` (a fresh allocation holding exactly
`contents`, discarding the old one), `write offset bytes` models
`queue.write_buffer(buffer, offset, bytes)`. -/
inductive GpuEvent where
  | realloc (contents : List Nat)
  | write (offset : Nat) (bytes : List Nat)
  deriving DecidableEq

/-- Serialisation of a host sequence, `bytemuck::cast_slice`. -/
def serList (ser : α → List Nat) : List α → List Nat
  | [] => []
  | x :: xs => ser x ++ serList ser xs

/-- Every record serialises to exactly `tsize` bytes. -/
def SerSized (ser : α → List Nat) (tsize : Nat) : Prop :=
  ∀ x, (ser x).length = tsize

/-- Overwrite the bytes of `gpu` starting at `offset` with `bytes`
(the effect of `queue.write_buffer`; all uses below stay in bounds). -/
def writeBytes (gpu : List Nat) (offset : Nat) (bytes : List Nat) : List Nat :=
  gpu.take offset ++ bytes ++ gpu.drop (offset + bytes.length)

/-- `CpuBuffer::with_capacity`: a GPU allocation of
`size_of::<T>() * capacity` bytes (zero-initialised, as WebGPU
guarantees) and an empty host sequence. -/
def CpuBuffer.withCapacity (α : Type) (tsize capacity : Nat) : CpuBuffer α :=
  ⟨List.replicate (tsize * capacity) 0, []⟩

/-- `CpuBuffer::clear`: empties the host sequence, leaves the GPU
allocation alone. -/
def CpuBuffer.clear (b : CpuBuffer α) : CpuBuffer α :=
  { b with data := [] }

/-- `CpuBuffer::len` (host sequence length, `as u32`). -/
def CpuBuffer.hostLen (b : CpuBuffer α) : Nat :=
  b.data.length % 2 ^ 32

/-- A `Batch<'a, T>` holds its start offset (the host length recorded at
`Batch::new`) and the buffer it owns for the transaction. -/
structure Batch (α : Type) where
  start : Nat
  buf : CpuBuffer α
  deriving DecidableEq

/-- `Batch::new` / `CpuBuffer::batch`: records the current host length
as the transaction's start offset. -/
def CpuBuffer.batch (b : CpuBuffer α) : Batch α :=
  ⟨b.data.length, b⟩

/-- `Batch::push`: appends one record to the host sequence. -/
def Batch.push (bt : Batch α) (v : α) : Batch α :=
  { bt with buf := { bt.buf with data := bt.buf.data ++ [v] } }

/-- Push a whole list of records, one `Batch::push` per element. -/
def Batch.pushList (bt : Batch α) (vs : List α) : Batch α :=
  vs.foldl Batch.push bt

/-- `impl Drop for Batch` — closing the transaction.  If the host
sequence is empty, nothing happens.  If its byte size exceeds the
current GPU allocation, a fresh exactly-fitting allocation is created
from the full serialised sequence (`create_buffer_init`).  Otherwise the
bytes appended since `start` are written at offset
`start * size_of::<T>()`.  (The source's final `else if len > 0` guard
is kept even though it is always true at that point.) -/
def Batch.close (ser : α → List Nat) (tsize : Nat) (bt : Batch α) :
    CpuBuffer α × List GpuEvent :=
  if bt.buf.data.length = 0 then
    (bt.buf, [])
  else if bt.buf.data.length * tsize > bt.buf.gpu.length then
    let bytes := serList ser bt.buf.data
    ({ bt.buf with gpu := bytes }, [.realloc bytes])
  else if bt.buf.data.length > 0 then
    let bytes := serList ser (bt.buf.data.drop bt.start)
    ({ bt.buf with gpu := writeBytes bt.buf.gpu (bt.start * tsize) bytes },
      [.write (bt.start * tsize) bytes])
  else
    (bt.buf, [])

/-- Is this event a reallocation? -/
def GpuEvent.isRealloc : GpuEvent → Bool
  | .realloc _ => true
  | .write _ _ => false

theorem serList_length {ser : α → List Nat} {tsize : Nat}
    (hser : SerSized ser tsize) (l : List α) :
    (serList ser l).length = l.length * tsize := by
  induction l with
  | nil => simp [serList]
  | cons x xs ih =>
    simp [serList, hser x, ih, Nat.succ_mul, Nat.add_comm]

theorem serList_append {ser : α → List Nat} (l₁ l₂ : List α) :
    serList ser (l₁ ++ l₂) = serList ser l₁ ++ serList ser l₂ := by
  induction l₁ with
  | nil => simp [serList]
  | cons x xs ih => simp [serList, ih]

theorem Batch.pushList_start (bt : Batch α) (vs : List α) :
    (bt.pushList vs).start = bt.start := by
  induction vs generalizing bt with
  | nil => rfl
  | cons v vs ih => simpa [Batch.pushList, Batch.push] using ih (bt.push v)

theorem Batch.pushList_gpu (bt : Batch α) (vs : List α) :
    (bt.pushList vs).buf.gpu = bt.buf.gpu := by
  induction vs generalizing bt with
  | nil => rfl
  | cons v vs ih => simpa [Batch.pushList, Batch.push] using ih (bt.push v)

theorem Batch.pushList_data (bt : Batch α) (vs : List α) :
    (bt.pushList vs).buf.data = bt.buf.data ++ vs := by
  induction vs generalizing bt with
  | nil => simp [Batch.pushList]
  | cons v vs ih =>
    have h := ih (bt.push v)
    simp [Batch.pushList, Batch.push] at h ⊢
    simp [h]

theorem writeBytes_length {gpu bytes : List Nat} {offset : Nat}
    (h : offset + bytes.length ≤ gpu.length) :
    (writeBytes gpu offset bytes).length = gpu.length := by
  simp [writeBytes]
  omega

theorem writeBytes_take {gpu bytes : List Nat} {offset : Nat}
    (h : offset ≤ gpu.length) :
    (writeBytes gpu offset bytes).take offset = gpu.take offset := by
  have hlen : (gpu.take offset).length = offset := by
    simp [List.length_take]; omega
  simpa [writeBytes, List.append_assoc] using
    @List.take_left' _ (gpu.take offset) (bytes ++ gpu.drop (offset + bytes.length)) offset hlen

theorem Batch.close_empty {ser : α → List Nat} {tsize : Nat} {bt : Batch α}
    (h : bt.buf.data.length = 0) :
    bt.close ser tsize = (bt.buf, []) := by
  simp [Batch.close, h]

theorem Batch.close_realloc {ser : α → List Nat} {tsize : Nat} {bt : Batch α}
    (h : bt.buf.data.length * tsize > bt.buf.gpu.length) :
    bt.close ser tsize =
      ({ bt.buf with gpu := serList ser bt.buf.data },
        [.realloc (serList ser bt.buf.data)]) := by
  have hne : bt.buf.data.length ≠ 0 := by
    intro h0; rw [h0] at h; simp at h
  simp [Batch.close, hne, h]

theorem Batch.close_write {ser : α → List Nat} {tsize : Nat} {bt : Batch α}
    (hne : bt.buf.data.length ≠ 0)
    (hfit : bt.buf.data.length * tsize ≤ bt.buf.gpu.length) :
    bt.close ser tsize =
      ({ bt.buf with
          gpu := writeBytes bt.buf.gpu (bt.start * tsize)
            (serList ser (bt.buf.data.drop bt.start)) },
        [.write (bt.start * tsize) (serList ser (bt.buf.data.drop bt.start))]) := by
  have hng : ¬ bt.buf.data.length * tsize > bt.buf.gpu.length := by omega
  have hpos : bt.buf.data.length > 0 := Nat.pos_of_ne_zero hne
  simp [Batch.close, hne, hng, hpos]

theorem Batch.close_data (ser : α → List Nat) (tsize : Nat) (bt : Batch α) :
    (bt.close ser tsize).1.data = bt.buf.data := by
  unfold Batch.close
  split
  · rfl
  · split
    · rfl
    · split <;> rfl

/-- One whole transaction: open a batch on `b`, push `vs` in order, and
close it (the `Drop` at the end of the batch's scope). -/
def batchRun (ser : α → List Nat) (tsize : Nat) (b : CpuBuffer α) (vs : List α) :
    CpuBuffer α × List GpuEvent :=
  (((b.batch).pushList vs).close ser tsize)

/-- A one-byte record serialisation used to instantiate the generic
buffer theorems on concrete inputs. -/
def ser0 : Nat → List Nat := fun n => [n % 256]

theorem batchRun_data (ser : α → List Nat) (tsize : Nat) (b : CpuBuffer α)
    (vs : List α) : (batchRun ser tsize b vs).1.data = b.data ++ vs := by
  simp [batchRun, Batch.close_data, Batch.pushList_data, CpuBuffer.batch]

theorem batchRun_eq_close (ser : α → List Nat) (tsize : Nat) (b : CpuBuffer α)
    (vs : List α) :
    batchRun ser tsize b vs =
      Batch.close ser tsize ⟨b.data.length, ⟨b.gpu, b.data ++ vs⟩⟩ := by
  have h : (b.batch).pushList vs = ⟨b.data.length, ⟨b.gpu, b.data ++ vs⟩⟩ := by
    cases hb : (b.batch).pushList vs with
    | mk s bf =>
      cases bf with
      | mk g d =>
        have h1 := Batch.pushList_start (b.batch) vs
        have h2 := Batch.pushList_gpu (b.batch) vs
        have h3 := Batch.pushList_data (b.batch) vs
        rw [hb] at h1 h2 h3
        simp [CpuBuffer.batch] at h1 h2 h3
        simp [h1, h2, h3]
  rw [batchRun, h]

/-- C1: for a `CpuBuffer` created with `with_capacity C`, pushing `K`
records in one batch and closing it leaves the host sequence equal to
the `K` pushed records; if `K ≤ C` the GPU buffer is not reallocated
(its size stays `tsize*C`) and its bytes `[0, K*tsize)` equal the
serialised host sequence; if `K > C` the close performs exactly one
reallocation whose contents are the whole serialised host sequence
(one transfer, previous allocation discarded), sized to exactly
`K*tsize` bytes. -/
theorem cpuBuffer_batch_growth {α : Type} (ser : α → List Nat) (tsize : Nat)
    (hser : SerSized ser tsize) (ht : 0 < tsize) (C : Nat) (recs : List α) :
    (batchRun ser tsize (CpuBuffer.withCapacity α tsize C) recs).1.data = recs ∧
    (recs.length ≤ C →
      (∀ e ∈ (batchRun ser tsize (CpuBuffer.withCapacity α tsize C) recs).2,
        e.isRealloc = false) ∧
      (batchRun ser tsize (CpuBuffer.withCapacity α tsize C) recs).1.gpu.length
        = tsize * C ∧
      (batchRun ser tsize (CpuBuffer.withCapacity α tsize C) recs).1.gpu.take
        (recs.length * tsize) = serList ser recs) ∧
    (C < recs.length →
      (batchRun ser tsize (CpuBuffer.withCapacity α tsize C) recs).2
        = [.realloc (serList ser recs)] ∧
      (batchRun ser tsize (CpuBuffer.withCapacity α tsize C) recs).1.gpu
        = serList ser recs ∧
      (serList ser recs).length = recs.length * tsize) := by
  have hrun : batchRun ser tsize (CpuBuffer.withCapacity α tsize C) recs
      = Batch.close ser tsize ⟨0, ⟨List.replicate (tsize * C) 0, recs⟩⟩ := by
    rw [batchRun_eq_close]
    simp [CpuBuffer.withCapacity]
  rw [hrun]
  rcases Nat.eq_zero_or_pos recs.length with h0 | hpos
  · have hrecs : recs = [] := List.length_eq_zero.mp h0
    subst hrecs
    rw [Batch.close_empty (by simp)]
    refine ⟨rfl, ?_, ?_⟩
    · intro _
      exact ⟨by simp, by simp, by simp [serList]⟩
    · intro hC
      exact absurd hC (by omega)
  · by_cases hKC : recs.length ≤ C
    · have hfit : ((⟨0, ⟨List.replicate (tsize * C) 0, recs⟩⟩ :
          Batch α)).buf.data.length * tsize ≤
          ((⟨0, ⟨List.replicate (tsize * C) 0, recs⟩⟩ : Batch α)).buf.gpu.length := by
        simp [List.length_replicate]
        calc recs.length * tsize ≤ C * tsize := Nat.mul_le_mul_right _ hKC
          _ = tsize * C := Nat.mul_comm _ _
      have hne : ((⟨0, ⟨List.replicate (tsize * C) 0, recs⟩⟩ :
          Batch α)).buf.data.length ≠ 0 := by
        simpa using hpos.ne'
      rw [Batch.close_write hne hfit]
      have hblen : (serList ser recs).length = recs.length * tsize :=
        serList_length hser recs
      refine ⟨rfl, ?_, ?_⟩
      · intro _
        refine ⟨by simp [GpuEvent.isRealloc], ?_, ?_⟩
        · simp only []
          rw [writeBytes_length]
          · simp
          · simpa [hblen] using hfit
        · simp only [writeBytes, Nat.mul_zero, Nat.zero_mul, List.drop_zero,
            List.take_zero, List.nil_append, Nat.zero_add]
          rw [← hblen]
          exact List.take_left' rfl
      · intro hC
        exact absurd hKC (by omega)
    · have hgt : ((⟨0, ⟨List.replicate (tsize * C) 0, recs⟩⟩ :
          Batch α)).buf.data.length * tsize >
          ((⟨0, ⟨List.replicate (tsize * C) 0, recs⟩⟩ : Batch α)).buf.gpu.length := by
        simp [List.length_replicate]
        calc tsize * C = C * tsize := Nat.mul_comm _ _
          _ < recs.length * tsize := by
            exact Nat.mul_lt_mul_of_lt_of_le (by omega) (le_refl _) ht
      rw [Batch.close_realloc hgt]
      refine ⟨rfl, ?_, ?_⟩
      · intro h
        exact absurd h (by omega)
      · intro _
        exact ⟨rfl, rfl, serList_length hser recs⟩

/-- Witness for C1: with one-byte records and capacity 2, pushing three
records reallocates to exactly three bytes, while pushing two records
writes them in place. -/
theorem cpuBuffer_batch_growth_witness :
    SerSized ser0 1 ∧ 0 < 1 ∧
    (batchRun ser0 1 (CpuBuffer.withCapacity Nat 1 2) [7, 8, 9]).2
      = [GpuEvent.realloc [7, 8, 9]] ∧
    (batchRun ser0 1 (CpuBuffer.withCapacity Nat 1 2) [7, 8]).1.gpu.take 2
      = [7, 8] := by
  have hser : SerSized ser0 1 := fun x => rfl
  have h1 := cpuBuffer_batch_growth ser0 1 hser Nat.one_pos 2 [7, 8, 9]
  have h2 := cpuBuffer_batch_growth ser0 1 hser Nat.one_pos 2 [7, 8]
  refine ⟨hser, Nat.one_pos, ?_, ?_⟩
  · exact ((h1.2.2 (by norm_num)).1).trans (by decide)
  · exact ((h2.2.1 (by norm_num)).2.2).trans (by decide)

/-- C2: if a first transaction on a fresh buffer wrote records `[0,a)`
and a second transaction appends records `[a,b)` with `b*tsize` within
the current allocation, closing the second transaction issues exactly
one write of the bytes `[a*tsize, b*tsize)` (the serialised appended
records) and leaves the bytes `[0, a*tsize)` unchanged. -/
theorem cpuBuffer_partial_update {α : Type} (ser : α → List Nat) (tsize : Nat)
    (C : Nat) (recs1 recs2 : List α)
    (b1 : CpuBuffer α) (evs1 : List GpuEvent)
    (h1 : batchRun ser tsize (CpuBuffer.withCapacity α tsize C) recs1 = (b1, evs1))
    (hfit : (recs1.length + recs2.length) * tsize ≤ b1.gpu.length) :
    (batchRun ser tsize b1 recs2).1.gpu.take (recs1.length * tsize)
        = b1.gpu.take (recs1.length * tsize) ∧
    (batchRun ser tsize b1 recs2).1.data = recs1 ++ recs2 ∧
    (batchRun ser tsize b1 recs2).2
        = (if recs1.length + recs2.length = 0 then ([] : List GpuEvent)
           else [.write (recs1.length * tsize) (serList ser recs2)]) := by
  have hdata : b1.data = recs1 := by
    have hd := batchRun_data ser tsize (CpuBuffer.withCapacity α tsize C) recs1
    rw [h1] at hd
    simpa [CpuBuffer.withCapacity] using hd
  have hrun : batchRun ser tsize b1 recs2
      = Batch.close ser tsize ⟨recs1.length, ⟨b1.gpu, recs1 ++ recs2⟩⟩ := by
    rw [batchRun_eq_close, hdata]
  rw [hrun]
  by_cases h0 : recs1.length + recs2.length = 0
  · have e1 : recs1 = [] := List.length_eq_zero.mp (by omega)
    have e2 : recs2 = [] := List.length_eq_zero.mp (by omega)
    subst e1; subst e2
    rw [Batch.close_empty (by simp)]
    exact ⟨rfl, rfl, by simp⟩
  · have hne : ((⟨recs1.length, ⟨b1.gpu, recs1 ++ recs2⟩⟩ :
        Batch α)).buf.data.length ≠ 0 := by
      simp only [List.length_append]
      omega
    have hfit' : ((⟨recs1.length, ⟨b1.gpu, recs1 ++ recs2⟩⟩ :
        Batch α)).buf.data.length * tsize ≤
        ((⟨recs1.length, ⟨b1.gpu, recs1 ++ recs2⟩⟩ : Batch α)).buf.gpu.length := by
      simpa [List.length_append] using hfit
    rw [Batch.close_write hne hfit']
    have hdrop : (recs1 ++ recs2).drop recs1.length = recs2 := List.drop_left _ _
    have hoff : recs1.length * tsize ≤ b1.gpu.length := by
      have : recs1.length * tsize ≤ (recs1.length + recs2.length) * tsize :=
        Nat.mul_le_mul_right _ (by omega)
      omega
    refine ⟨?_, rfl, ?_⟩
    · simpa using
        @writeBytes_take b1.gpu (serList ser ((recs1 ++ recs2).drop recs1.length)) (recs1.length * tsize) hoff
    · simp [hdrop, h0]

/-- Witness for C2: one-byte records, capacity 4; first transaction
writes `[1,2]`, the second appends `[3]` and issues exactly one write
of byte 3 at offset 2, leaving bytes `[0,2)` equal to `[1,2]`. -/
theorem cpuBuffer_partial_update_witness :
    SerSized ser0 1 ∧
    batchRun ser0 1 (CpuBuffer.withCapacity Nat 1 4) [1, 2]
      = (⟨[1, 2, 0, 0], [1, 2]⟩, [GpuEvent.write 0 [1, 2]]) ∧
    (2 + 1) * 1 ≤ 4 ∧
    (batchRun ser0 1 (⟨[1, 2, 0, 0], [1, 2]⟩ : CpuBuffer Nat) [3]).1.gpu.take 2
      = [1, 2] ∧
    (batchRun ser0 1 (⟨[1, 2, 0, 0], [1, 2]⟩ : CpuBuffer Nat) [3]).2
      = [GpuEvent.write 2 [3]] := by
  have hser : SerSized ser0 1 := fun x => rfl
  have hb : batchRun ser0 1 (CpuBuffer.withCapacity Nat 1 4) [1, 2]
      = (⟨[1, 2, 0, 0], [1, 2]⟩, [GpuEvent.write 0 [1, 2]]) := by decide
  have h := cpuBuffer_partial_update ser0 1 4 [1, 2] [3]
    ⟨[1, 2, 0, 0], [1, 2]⟩ [GpuEvent.write 0 [1, 2]] hb (by decide)
  refine ⟨hser, hb, by norm_num, ?_, ?_⟩
  · exact h.1.trans (by decide)
  · exact h.2.2.trans (by decide)

/-- C6 (amended): opening a batch and closing it with zero pushes never
reallocates, never changes the buffer (host or GPU side), and transfers
zero bytes; when the prior host sequence is empty no write command is
issued at all, while with a non-empty prior sequence a zero-byte write
command at the end offset is still issued. -/
theorem cpuBuffer_empty_batch_close {α : Type} (ser : α → List Nat) (tsize : Nat)
    (b : CpuBuffer α) (hinv : b.data.length * tsize ≤ b.gpu.length) :
    (batchRun ser tsize b []).1 = b ∧
    (∀ e ∈ (batchRun ser tsize b []).2, e.isRealloc = false) ∧
    (∀ off bs, GpuEvent.write off bs ∈ (batchRun ser tsize b []).2 → bs = []) ∧
    (b.data = [] → (batchRun ser tsize b []).2 = []) ∧
    (b.data ≠ [] → (batchRun ser tsize b []).2
        = [.write (b.data.length * tsize) []]) := by
  have hrun : batchRun ser tsize b []
      = Batch.close ser tsize ⟨b.data.length, ⟨b.gpu, b.data⟩⟩ := by
    rw [batchRun_eq_close]
    simp
  rw [hrun]
  by_cases h0 : b.data = []
  · rw [Batch.close_empty (by simp [h0])]
    exact ⟨rfl, by simp, by simp, fun _ => rfl, fun hne => absurd h0 hne⟩
  · have hne : ((⟨b.data.length, ⟨b.gpu, b.data⟩⟩ :
        Batch α)).buf.data.length ≠ 0 := by
      simpa using fun h => h0 (List.length_eq_zero.mp h)
    have hfit' : ((⟨b.data.length, ⟨b.gpu, b.data⟩⟩ :
        Batch α)).buf.data.length * tsize ≤
        ((⟨b.data.length, ⟨b.gpu, b.data⟩⟩ : Batch α)).buf.gpu.length := hinv
    rw [Batch.close_write hne hfit']
    have hdrop : b.data.drop b.data.length = [] := List.drop_length _
    refine ⟨?_, ?_, ?_, fun h => absurd h h0, ?_⟩
    · simp [hdrop, serList, writeBytes]
    · simp [hdrop, serList, GpuEvent.isRealloc]
    · simp [hdrop, serList]
    · intro _
      simp [hdrop, serList]

/-- Counterexample for C6 as stated: on a buffer whose host sequence
already holds one record, a zero-push batch still issues a (zero-byte)
write command on close, so the tick is not transfer-free. -/
theorem cpuBuffer_empty_batch_close_cex :
    (batchRun ser0 1 (batchRun ser0 1 (CpuBuffer.withCapacity Nat 1 4) [5]).1 []).2
      = [GpuEvent.write 1 []] ∧
    (batchRun ser0 1 (batchRun ser0 1 (CpuBuffer.withCapacity Nat 1 4) [5]).1 []).2
      ≠ [] :=
  ⟨by decide, by decide⟩

/-- Witness for C6: a concrete buffer holding one one-byte record is
left completely unchanged by a zero-push batch, whose only event is a
zero-byte write. -/
theorem cpuBuffer_empty_batch_close_witness :
    (⟨[5, 0, 0, 0], [5]⟩ : CpuBuffer Nat).data.length * 1
      ≤ (⟨[5, 0, 0, 0], [5]⟩ : CpuBuffer Nat).gpu.length ∧
    (batchRun ser0 1 (⟨[5, 0, 0, 0], [5]⟩ : CpuBuffer Nat) []).1
      = ⟨[5, 0, 0, 0], [5]⟩ ∧
    (batchRun ser0 1 (⟨[5, 0, 0, 0], [5]⟩ : CpuBuffer Nat) []).2
      = [GpuEvent.write 1 []] := by
  have h := cpuBuffer_empty_batch_close ser0 1
    (⟨[5, 0, 0, 0], [5]⟩ : CpuBuffer Nat) (by decide)
  exact ⟨by decide, h.1, (h.2.2.2.2 (by decide)).trans (by decide)⟩

/-! ## Debug line pipeline (`src/pipelines/debug.rs`)

`DebugPipeline` owns a `CpuBuffer<DebugVertex>` and a `CpuBuffer<u32>`,
both created with capacity 64.  The vertex type is kept abstract
(parameter `δ` with serialisation `serV`/`tsizeV`); indices are `u32`,
serialised little-endian by `serU32`.  `DebugBatch` holds one open
batch on each buffer plus the auto-incrementing `current_vertex : u32`
counter (modular arithmetic kept explicit). -/

structure DebugPipeline (δ : Type) where
  vertexBuffer : CpuBuffer δ
  indexBuffer : CpuBuffer Nat
  deriving DecidableEq

/-- Little-endian serialisation of a `u32` index record. -/
def serU32 (n : Nat) : List Nat :=
  [n % 256, n / 256 % 256, n / 65536 % 256, n / 16777216 % 256]

/-- `DebugPipeline::new`: both staged buffers start with capacity 64
records (`tsizeV` is `size_of::<DebugVertex>()`). -/
def DebugPipeline.new (δ : Type) (tsizeV : Nat) : DebugPipeline δ :=
  ⟨CpuBuffer.withCapacity δ tsizeV 64, CpuBuffer.withCapacity Nat 4 64⟩

/-- `DebugPipeline::clear`: clears both host sequences. -/
def DebugPipeline.clear (p : DebugPipeline δ) : DebugPipeline δ :=
  ⟨p.vertexBuffer.clear, p.indexBuffer.clear⟩

/-- Render-pass commands issued by a draw method. -/
inductive DrawEvent where
  | setPipeline
  | setBindGroup
  | setVertexBuffer
  | setIndexBuffer
  | drawIndexed (indexCount : Nat) (instanceCount : Nat)
  deriving DecidableEq

/-- `DebugPipeline::draw_lines`: binds pipeline, camera, both buffers,
then issues one indexed draw over `0..index_buffer.len()` (the host
length as `u32`) with a single instance. -/
def DebugPipeline.drawLines (p : DebugPipeline δ) : List DrawEvent :=
  [.setPipeline, .setBindGroup, .setVertexBuffer, .setIndexBuffer,
    .drawIndexed p.indexBuffer.hostLen 1]

/-- `DebugBatch`: `current_vertex` counter plus one open batch per
staged buffer. -/
structure DebugBatch (δ : Type) where
  currentVertex : Nat
  vertices : Batch δ
  indices : Batch Nat
  deriving DecidableEq

/-- `DebugBatch::new` / `DebugPipeline::batch`: the counter starts at 0
regardless of the buffers' current content. -/
def DebugPipeline.batch (p : DebugPipeline δ) : DebugBatch δ :=
  ⟨0, p.vertexBuffer.batch, p.indexBuffer.batch⟩

/-- `DebugBatch::push_vertex`: appends the vertex, appends the current
counter value as its index, then increments the `u32` counter. -/
def DebugBatch.pushVertex (b : DebugBatch δ) (v : δ) : DebugBatch δ :=
  ⟨(b.currentVertex + 1) % 2 ^ 32, b.vertices.push v, b.indices.push b.currentVertex⟩

/-- Push a whole list of vertices, one `push_vertex` per element. -/
def DebugBatch.pushVertexList (b : DebugBatch δ) (vs : List δ) : DebugBatch δ :=
  vs.foldl DebugBatch.pushVertex b

/-- Dropping a `DebugBatch` drops its two field batches in declaration
order: the vertex batch closes first, then the index batch. -/
def DebugBatch.close (serV : δ → List Nat) (tsizeV : Nat) (b : DebugBatch δ) :
    DebugPipeline δ × List GpuEvent :=
  (⟨(b.vertices.close serV tsizeV).1, (b.indices.close serU32 4).1⟩,
    (b.vertices.close serV tsizeV).2 ++ (b.indices.close serU32 4).2)

theorem DebugBatch.pushVertexList_vdata (b : DebugBatch δ) (vs : List δ) :
    (b.pushVertexList vs).vertices.buf.data = b.vertices.buf.data ++ vs := by
  induction vs generalizing b with
  | nil => simp [DebugBatch.pushVertexList]
  | cons v vs ih =>
    have h := ih (b.pushVertex v)
    simp [DebugBatch.pushVertexList, DebugBatch.pushVertex, Batch.push] at h ⊢
    simp [h]

theorem DebugBatch.pushVertexList_idata (b : DebugBatch δ) (vs : List δ)
    (hcv : b.currentVertex < 2 ^ 32) :
    (b.pushVertexList vs).indices.buf.data
      = b.indices.buf.data
        ++ (List.range vs.length).map (fun i => (b.currentVertex + i) % 2 ^ 32) := by
  induction vs generalizing b with
  | nil => simp [DebugBatch.pushVertexList]
  | cons v vs ih =>
    have hcv' : (b.pushVertex v).currentVertex < 2 ^ 32 := by
      simp [DebugBatch.pushVertex]
      exact Nat.mod_lt _ (by norm_num)
    have h := ih (b.pushVertex v) hcv'
    simp [DebugBatch.pushVertexList] at h ⊢
    rw [h]
    simp [DebugBatch.pushVertex, Batch.push, List.range_succ_eq_map,
      List.map_map]
    constructor
    · exact (Nat.mod_eq_of_lt hcv).symm
    · intro a _
      omega

set_option maxRecDepth 8192 in
/-- Counterexample for C5 as stated: in one clear-to-draw interval that
uses two batches (clear, then one batch pushing a vertex, then a second
batch pushing another), the host index sequence is `[0, 0]`, not the
strictly increasing `[0, 1]` the claim requires for two pushed
vertices. -/
theorem debugBatch_indices_cex :
    ((((((((DebugPipeline.new Nat 1).clear).batch).pushVertex 10).close
        ser0 1).1.batch).pushVertex 11).close ser0 1).1.indexBuffer.data
      = [0, 0] ∧
    ¬ ((((((((DebugPipeline.new Nat 1).clear).batch).pushVertex 10).close
        ser0 1).1.batch).pushVertex 11).close ser0 1).1.indexBuffer.data
      = [0, 1] ∧
    ((((((((DebugPipeline.new Nat 1).clear).batch).pushVertex 10).close
        ser0 1).1.batch).pushVertex 11).close ser0 1).1.vertexBuffer.data
      = [10, 11] :=
  ⟨by decide, by decide, by decide⟩

/-- C5 (amended): each `push_vertex` call appends exactly one vertex
and one index; the indices pushed by a single batch count up by one
from 0 (`u32` arithmetic, at most 2^32 pushes), so the first batch
after `clear()` yields indices `[0, 1, ..., n-1]` referencing its `n`
pushed vertices in push order, and these facts survive the batch close.
A later batch in the same interval restarts at 0, so its indices
reference vertices by position from the interval's start rather than
continuing the count. -/
theorem debugBatch_indices {δ : Type} (serV : δ → List Nat) (tsizeV : Nat)
    (p : DebugPipeline δ) (vs : List δ) (hn : vs.length ≤ 2 ^ 32) :
    ((p.batch).pushVertexList vs).vertices.buf.data
        = p.vertexBuffer.data ++ vs ∧
    ((p.batch).pushVertexList vs).indices.buf.data
        = p.indexBuffer.data ++ List.range vs.length ∧
    (((p.batch).pushVertexList vs).close serV tsizeV).1.vertexBuffer.data
        = p.vertexBuffer.data ++ vs ∧
    (((p.batch).pushVertexList vs).close serV tsizeV).1.indexBuffer.data
        = p.indexBuffer.data ++ List.range vs.length := by
  have hcv0 : (p.batch).currentVertex < 2 ^ 32 := by
    norm_num [DebugPipeline.batch]
  have hvd := DebugBatch.pushVertexList_vdata (p.batch) vs
  have hid := DebugBatch.pushVertexList_idata (p.batch) vs hcv0
  have hmap : (List.range vs.length).map
      (fun i => ((p.batch).currentVertex + i) % 2 ^ 32) = List.range vs.length := by
    have hcongr : ∀ i ∈ List.range vs.length,
        ((p.batch).currentVertex + i) % 2 ^ 32 = id i := by
      intro i hmem
      have h1 : i < vs.length := List.mem_range.mp hmem
      have h2 : i < 2 ^ 32 := lt_of_lt_of_le h1 hn
      show ((p.batch).currentVertex + i) % 2 ^ 32 = i
      simp only [DebugPipeline.batch]
      omega
    rw [List.map_congr_left hcongr, List.map_id]
  have hid' : ((p.batch).pushVertexList vs).indices.buf.data
      = p.indexBuffer.data ++ List.range vs.length := by
    rw [hid, hmap]
    rfl
  refine ⟨hvd, hid', ?_, ?_⟩
  · simp only [DebugBatch.close]
    rw [Batch.close_data]
    exact hvd
  · simp only [DebugBatch.close]
    rw [Batch.close_data]
    exact hid'

set_option maxRecDepth 8192 in
/-- Witness for C5 (amended): after `clear()`, one batch pushing five
vertices yields host indices `[0,1,2,3,4]` referencing those five
vertices in push order, and a single push after `clear()` yields
`[0]`. -/
theorem debugBatch_indices_witness :
    ([10, 11, 12, 13, 14] : List Nat).length ≤ 2 ^ 32 ∧
    (((((DebugPipeline.new Nat 1).clear).batch).pushVertexList
        [10, 11, 12, 13, 14]).close ser0 1).1.indexBuffer.data
      = [0, 1, 2, 3, 4] ∧
    (((((DebugPipeline.new Nat 1).clear).batch).pushVertexList
        [10, 11, 12, 13, 14]).close ser0 1).1.vertexBuffer.data
      = [10, 11, 12, 13, 14] ∧
    (((((DebugPipeline.new Nat 1).clear).batch).pushVertexList
        [10]).close ser0 1).1.indexBuffer.data = [0] := by
  have h5 := debugBatch_indices ser0 1 ((DebugPipeline.new Nat 1).clear)
    [10, 11, 12, 13, 14] (by norm_num)
  have h1 := debugBatch_indices ser0 1 ((DebugPipeline.new Nat 1).clear)
    [10] (by norm_num)
  refine ⟨by norm_num, ?_, ?_, ?_⟩
  · exact (h5.2.2.2).trans (by decide)
  · exact (h5.2.2.1).trans (by decide)
  · exact (h1.2.2.2).trans (by decide)

/-- C9: the host lengths of the debug pipeline's vertex and index
buffers are equal after construction, after `clear`, and after any
batch of `push_vertex` calls (closed); `draw_lines` issues exactly one
indexed draw, over one instance, whose index count is that shared host
length. -/
theorem debugPipeline_len_invariant {δ : Type} (serV : δ → List Nat)
    (tsizeV tsizeN : Nat) (p : DebugPipeline δ) (vs : List δ)
    (hinv : p.vertexBuffer.data.length = p.indexBuffer.data.length)
    (hlen : p.indexBuffer.data.length < 2 ^ 32) :
    (DebugPipeline.new δ tsizeN).vertexBuffer.data.length
        = (DebugPipeline.new δ tsizeN).indexBuffer.data.length ∧
    (p.clear).vertexBuffer.data.length = (p.clear).indexBuffer.data.length ∧
    (((p.batch).pushVertexList vs).close serV tsizeV).1.vertexBuffer.data.length
        = (((p.batch).pushVertexList vs).close serV
            tsizeV).1.indexBuffer.data.length ∧
    p.drawLines = [.setPipeline, .setBindGroup, .setVertexBuffer,
      .setIndexBuffer, .drawIndexed p.vertexBuffer.data.length 1] := by
  have hcv0 : (p.batch).currentVertex < 2 ^ 32 := by
    norm_num [DebugPipeline.batch]
  have hvd := DebugBatch.pushVertexList_vdata (p.batch) vs
  have hid := DebugBatch.pushVertexList_idata (p.batch) vs hcv0
  refine ⟨rfl, rfl, ?_, ?_⟩
  · simp only [DebugBatch.close]
    rw [Batch.close_data, Batch.close_data, hvd, hid]
    show (p.vertexBuffer.data ++ vs).length = (p.indexBuffer.data ++ _).length
    simp [hinv]
  · show p.drawLines = _
    simp only [DebugPipeline.drawLines, CpuBuffer.hostLen]
    rw [Nat.mod_eq_of_lt hlen, hinv]

/-- Witness for C9: on a freshly constructed pipeline the lengths are
both 0, remain equal after pushing two vertices in a batch, and
`draw_lines` issues one single-instance indexed draw of count 0. -/
theorem debugPipeline_len_invariant_witness :
    (DebugPipeline.new Nat 1).vertexBuffer.data.length
      = (DebugPipeline.new Nat 1).indexBuffer.data.length ∧
    (DebugPipeline.new Nat 1).indexBuffer.data.length < 2 ^ 32 ∧
    ((((DebugPipeline.new Nat 1).batch).pushVertexList
        [10, 11]).close ser0 1).1.vertexBuffer.data.length
      = ((((DebugPipeline.new Nat 1).batch).pushVertexList
        [10, 11]).close ser0 1).1.indexBuffer.data.length ∧
    (DebugPipeline.new Nat 1).drawLines
      = [.setPipeline, .setBindGroup, .setVertexBuffer, .setIndexBuffer,
          .drawIndexed 0 1] := by
  have h := debugPipeline_len_invariant ser0 1 1 (DebugPipeline.new Nat 1)
    [10, 11] rfl (by decide)
  exact ⟨rfl, by decide, h.2.2.1, h.2.2.2.trans (by decide)⟩

/-! ## Camera (spec-modelled) and frame orchestrator (`src/src/game.rs`)

`src/resources/camera.rs` is referenced by `game.rs` but is not among
the provided sources, so the camera is modelled from the spec (§4.2):
translations move the position along the camera's local
forward/right/up axes scaled by the signed delta, rotations adjust
yaw/pitch by the delta in radians, resize recomputes only the aspect
ratio.  The local axes are carried as state; scalars are `ℚ` in place
of `f32` (the claims below only use exact arithmetic: differences and
multiplications by zero are exact in `f32` for the claimed
cancellations). -/

def addV3 (a b : ℚ × ℚ × ℚ) : ℚ × ℚ × ℚ :=
  (a.1 + b.1, a.2.1 + b.2.1, a.2.2 + b.2.2)

def smulV3 (c : ℚ) (a : ℚ × ℚ × ℚ) : ℚ × ℚ × ℚ :=
  (c * a.1, c * a.2.1, c * a.2.2)

/-- Modelled from the spec: `Camera` state — position, local axes,
yaw/pitch orientation and projection aspect (`src/resources/camera.rs`
is missing from the sources). -/
structure CameraM where
  position : ℚ × ℚ × ℚ
  forwardAxis : ℚ × ℚ × ℚ
  rightAxis : ℚ × ℚ × ℚ
  upAxis : ℚ × ℚ × ℚ
  yaw : ℚ
  pitch : ℚ
  aspect : ℚ
  deriving DecidableEq

/-- Modelled from the spec: `walk_forward(delta)` translates along the
local forward axis scaled by `delta`. -/
def CameraM.walkForward (c : CameraM) (delta : ℚ) : CameraM :=
  { c with position := addV3 c.position (smulV3 delta c.forwardAxis) }

/-- Modelled from the spec: `walk_right(delta)` translates along the
local right axis scaled by `delta`. -/
def CameraM.walkRight (c : CameraM) (delta : ℚ) : CameraM :=
  { c with position := addV3 c.position (smulV3 delta c.rightAxis) }

/-- Modelled from the spec: `levitate_up(delta)` translates along the
local up axis scaled by `delta`. -/
def CameraM.levitateUp (c : CameraM) (delta : ℚ) : CameraM :=
  { c with position := addV3 c.position (smulV3 delta c.upAxis) }

/-- Modelled from the spec: `rotate_right(delta)` adjusts yaw by
`delta` radians (unclamped). -/
def CameraM.rotateRight (c : CameraM) (delta : ℚ) : CameraM :=
  { c with yaw := c.yaw + delta }

/-- Modelled from the spec: `rotate_up(delta)` adjusts pitch by `delta`
radians (unclamped). -/
def CameraM.rotateUp (c : CameraM) (delta : ℚ) : CameraM :=
  { c with pitch := c.pitch + delta }

/-- Modelled from the spec: `resize` recomputes only the aspect
ratio. -/
def CameraM.resize (c : CameraM) (w h : Nat) : CameraM :=
  { c with aspect := (w : ℚ) / (h : ℚ) }

structure SurfaceConfig where
  width : Nat
  height : Nat
  deriving DecidableEq

/-- `wgpu::SurfaceError` variants returned by
`surface.get_current_texture()`. -/
inductive SurfaceErrorM where
  | timeout
  | outdated
  | lost
  | outOfMemory
  deriving DecidableEq

/-- Result of the per-frame target acquisition. -/
inductive AcquireOutcome where
  | ok
  | err (e : SurfaceErrorM)
  deriving DecidableEq

/-- Observable calls a render tick can make, in order. -/
inductive RenderEvent where
  | requestRedraw
  | configureSurface (width height : Nat)
  | rebuildDepthTexture (width height : Nat)
  | updateCameraBinding
  | draw
  | submit
  | present
  deriving DecidableEq

/-- The `Game` struct fields the frame state machine touches: the
running flag, surface configuration, last successful-frame timestamp,
camera, mouse state and the six key-axis magnitudes. -/
structure Game where
  running : Bool
  surfConfig : SurfaceConfig
  lastTime : Option ℚ
  camera : CameraM
  mouseSensitivity : ℚ
  lmbPressed : Bool
  forward : ℚ
  backward : ℚ
  left : ℚ
  right : ℚ
  up : ℚ
  down : ℚ
  deriving DecidableEq

/-- Elapsed time since the previous successful frame: zero when there
is none (`instant::Duration::ZERO`), `now - last_time` otherwise. -/
def Game.elapsed (g : Game) (now : ℚ) : ℚ :=
  match g.lastTime with
  | some t => now - t
  | none => 0

/-- `Game::render`, one tick, with the acquisition outcome and the
current time injected.  Mirrors `game.rs` lines 173-239: early return
when not running; `request_redraw`; on `Outdated` reconfigure against
the current config and skip; on any other error log, clear the running
flag and skip; on success update `last_time`, walk the camera by the
key axes scaled by `dt`, update the camera binding, record one render
pass with the fur draw, submit, and present. -/
def Game.render (g : Game) (acq : AcquireOutcome) (now : ℚ) :
    Game × List RenderEvent :=
  if g.running = true then
    match acq with
    | .err .outdated =>
        (g, [.requestRedraw,
          .configureSurface g.surfConfig.width g.surfConfig.height])
    | .err _ =>
        ({ g with running := false }, [.requestRedraw])
    | .ok =>
        let dt := g.elapsed now
        let cam := ((g.camera.walkForward ((g.forward - g.backward) * dt)).walkRight
            ((g.right - g.left) * dt)).levitateUp ((g.up - g.down) * dt)
        ({ g with lastTime := some now, camera := cam },
          [.requestRedraw, .updateCameraBinding, .draw, .submit, .present])
  else
    (g, [])

/-- `Game::resize`: store the new dimensions, reconfigure the surface,
recompute the camera aspect, rebuild the depth target. -/
def Game.resize (g : Game) (w h : Nat) : Game × List RenderEvent :=
  ({ g with surfConfig := ⟨w, h⟩, camera := g.camera.resize w h },
    [.configureSurface w h, .rebuildDepthTexture w h])

/-- The key codes `Game::handle_keyboard` reacts to. -/
inductive KeyM where
  | escape
  | f11
  | keyW
  | keyS
  | keyD
  | keyA
  | space
  | shiftLeft
  | other
  deriving DecidableEq

/-- `Game::handle_keyboard`: Escape stops the game, F11 toggles
fullscreen (window-only effect), the six navigation keys set their
axis magnitude to 0.5 on press and 0 on release. -/
def Game.handleKeyboard (g : Game) (k : KeyM) (pressed : Bool) : Game :=
  match k, pressed with
  | .escape, true => { g with running := false }
  | .f11, true => g
  | .keyW, true => { g with forward := 1/2 }
  | .keyW, false => { g with forward := 0 }
  | .keyS, true => { g with backward := 1/2 }
  | .keyS, false => { g with backward := 0 }
  | .keyD, true => { g with right := 1/2 }
  | .keyD, false => { g with right := 0 }
  | .keyA, true => { g with left := 1/2 }
  | .keyA, false => { g with left := 0 }
  | .space, true => { g with up := 1/2 }
  | .space, false => { g with up := 0 }
  | .shiftLeft, true => { g with down := 1/2 }
  | .shiftLeft, false => { g with down := 0 }
  | _, _ => g

inductive MouseBtn where
  | lmb
  | rmb
  | middle
  | back
  | fwd
  | otherBtn
  deriving DecidableEq

/-- `Game::handle_mouse_button`: only the left button changes state
(cursor visibility is a window effect). -/
def Game.handleMouseButton (g : Game) (b : MouseBtn) (pressed : Bool) : Game :=
  match b with
  | .lmb => { g with lmbPressed := pressed }
  | _ => g

/-- `Game::handle_axis`: while the left button is held, axis 0 rotates
right by `value * sensitivity` and axis 1 rotates up by
`-value * sensitivity`. -/
def Game.handleAxis (g : Game) (axis : Nat) (value : ℚ) : Game :=
  if g.lmbPressed then
    match axis with
    | 0 => { g with camera := g.camera.rotateRight (value * g.mouseSensitivity) }
    | 1 => { g with camera := g.camera.rotateUp (-value * g.mouseSensitivity) }
    | _ => g
  else
    g

/-- The operations the event loop can invoke on a `Game`. -/
inductive GameOp where
  | renderOp (acq : AcquireOutcome) (now : ℚ)
  | resizeOp (w h : Nat)
  | keyOp (k : KeyM) (pressed : Bool)
  | mouseOp (b : MouseBtn) (pressed : Bool)
  | axisOp (axis : Nat) (value : ℚ)
  deriving DecidableEq

/-- One event-loop dispatch. -/
def Game.step (g : Game) : GameOp → Game × List RenderEvent
  | .renderOp acq now => g.render acq now
  | .resizeOp w h => g.resize w h
  | .keyOp k p => (g.handleKeyboard k p, [])
  | .mouseOp b p => (g.handleMouseButton b p, [])
  | .axisOp a v => (g.handleAxis a v, [])

/-- Run a whole sequence of event-loop dispatches, accumulating every
observable render event. -/
def Game.runOps (g : Game) : List GameOp → Game × List RenderEvent
  | [] => (g, [])
  | op :: ops =>
      let r := g.step op
      let rest := r.1.runOps ops
      (rest.1, r.2 ++ rest.2)

/-- A concrete camera state matching the one `Game::new` constructs
(eye at `(0,0,4)` looking at the origin). -/
def cam0 : CameraM :=
  ⟨(0, 0, 4), (0, 0, -1), (1, 0, 0), (0, 1, 0), 0, 0, 4/3⟩

/-- A concrete freshly-started game state: running, no frame rendered
yet, all key axes released. -/
def g0 : Game :=
  ⟨true, ⟨640, 480⟩, none, cam0, 1/10, false, 0, 0, 0, 0, 0, 0⟩

/-- `g0` after the running flag has been cleared. -/
def g0stopped : Game := { g0 with running := false }

theorem Game.handleKeyboard_running_false (g : Game) (k : KeyM) (p : Bool)
    (h : g.running = false) : (g.handleKeyboard k p).running = false := by
  cases k <;> cases p <;> simp [Game.handleKeyboard, h]

theorem Game.handleAxis_running (g : Game) (a : Nat) (v : ℚ) :
    (g.handleAxis a v).running = g.running := by
  unfold Game.handleAxis
  split
  · cases a with
    | zero => rfl
    | succ n =>
      cases n with
      | zero => rfl
      | succ m => rfl
  · rfl

theorem Game.handleMouseButton_running (g : Game) (b : MouseBtn) (p : Bool) :
    (g.handleMouseButton b p).running = g.running := by
  cases b <;> rfl

theorem Game.step_stopped (g : Game) (op : GameOp) (h : g.running = false) :
    (g.step op).1.running = false ∧
    ∀ ev ∈ (g.step op).2, ev ≠ RenderEvent.draw ∧ ev ≠ RenderEvent.submit ∧
      ev ≠ RenderEvent.present := by
  cases op with
  | renderOp acq now => simp [Game.step, Game.render, h]
  | resizeOp w h' =>
    refine ⟨?_, ?_⟩
    · simpa [Game.step, Game.resize] using h
    · simp [Game.step, Game.resize]
  | keyOp k p =>
    exact ⟨Game.handleKeyboard_running_false g k p h, by simp [Game.step]⟩
  | mouseOp b p =>
    exact ⟨(Game.handleMouseButton_running g b p).trans h, by simp [Game.step]⟩
  | axisOp a v =>
    exact ⟨(Game.handleAxis_running g a v).trans h, by simp [Game.step]⟩

theorem Game.runOps_stopped (g : Game) (ops : List GameOp)
    (h : g.running = false) :
    (g.runOps ops).1.running = false ∧
    ∀ ev ∈ (g.runOps ops).2, ev ≠ RenderEvent.draw ∧
      ev ≠ RenderEvent.submit ∧ ev ≠ RenderEvent.present := by
  induction ops generalizing g with
  | nil => exact ⟨h, by simp [Game.runOps]⟩
  | cons op ops ih =>
    have hs := Game.step_stopped g op h
    have hr := ih (g.step op).1 hs.1
    refine ⟨by simpa [Game.runOps] using hr.1, ?_⟩
    intro ev hev
    simp [Game.runOps] at hev
    rcases hev with h1 | h2
    · exact hs.2 ev h1
    · exact hr.2 ev h2

/-- C3 (amended): while running, an outdated-surface acquisition
failure leaves the whole game state unchanged — the running flag stays
true, `last_time` is untouched, the frame is skipped — and the tick
issues exactly one surface reconfiguration against the current size
with zero draw, submit or present calls.  (A lost surface is not
handled by this branch; it takes the fatal path, see the
counterexample.) -/
theorem game_render_outdated_skip (g : Game) (now : ℚ)
    (h : g.running = true) :
    g.render (.err .outdated) now
      = (g, [.requestRedraw,
          .configureSurface g.surfConfig.width g.surfConfig.height]) := by
  simp [Game.render, h]

/-- Counterexample for C3 as stated: a *lost* surface is treated as
fatal by the code — the tick clears the running flag and performs no
reconfiguration, contradicting the claim that an outdated-or-lost
failure keeps the game running and reconfigures once. -/
theorem game_render_outdated_skip_cex :
    g0.running = true ∧
    (g0.render (.err .lost) 1).1.running = false ∧
    (g0.render (.err .lost) 1).2 = [RenderEvent.requestRedraw] :=
  ⟨rfl, rfl, rfl⟩

/-- Witness for C3 (amended): on the concrete fresh game state an
outdated acquisition reconfigures once at 640x480, performs no draw,
submit or present, and leaves the state unchanged. -/
theorem game_render_outdated_skip_witness :
    g0.running = true ∧
    g0.render (.err .outdated) 0
      = (g0, [.requestRedraw, .configureSurface 640 480]) :=
  ⟨rfl, game_render_outdated_skip g0 0 rfl⟩

/-- C7: an acquisition failure other than the outdated and lost cases
clears the running flag with zero draw/submit/present calls that tick,
and once the running flag is false no sequence of further event-loop
operations — render ticks included — ever produces a draw, submit or
present call, nor returns the flag to true (Stopped is terminal). -/
theorem game_fatal_stop_terminal (g : Game) (e : SurfaceErrorM) (now : ℚ)
    (ops : List GameOp) :
    (g.running = true → e ≠ .outdated → e ≠ .lost →
      (g.render (.err e) now).1.running = false ∧
      (g.render (.err e) now).2 = [.requestRedraw]) ∧
    (g.running = false →
      (g.runOps ops).1.running = false ∧
      ∀ ev ∈ (g.runOps ops).2, ev ≠ RenderEvent.draw ∧
        ev ≠ RenderEvent.submit ∧ ev ≠ RenderEvent.present) := by
  constructor
  · intro hr ho hl
    cases e with
    | outdated => exact absurd rfl ho
    | lost => exact absurd rfl hl
    | timeout => exact ⟨by simp [Game.render, hr], by simp [Game.render, hr]⟩
    | outOfMemory => exact ⟨by simp [Game.render, hr], by simp [Game.render, hr]⟩
  · intro hs
    exact Game.runOps_stopped g ops hs

/-- Witness for C7: a timeout on the fresh game stops it with only the
redraw request issued, and from the stopped state a key press, a
successful-acquisition render tick and a resize produce no draw,
submit or present and leave the flag false. -/
theorem game_fatal_stop_terminal_witness :
    g0.running = true ∧
    (g0.render (.err .timeout) 1).1.running = false ∧
    (g0.render (.err .timeout) 1).2 = [RenderEvent.requestRedraw] ∧
    g0stopped.running = false ∧
    (g0stopped.runOps [.keyOp .keyW true, .renderOp .ok 1,
      .resizeOp 800 600]).1.running = false ∧
    ∀ ev ∈ (g0stopped.runOps [.keyOp .keyW true, .renderOp .ok 1,
      .resizeOp 800 600]).2, ev ≠ RenderEvent.draw ∧
      ev ≠ RenderEvent.submit ∧ ev ≠ RenderEvent.present := by
  have h1 := game_fatal_stop_terminal g0 .timeout 1 []
  have h2 := game_fatal_stop_terminal g0stopped .timeout 1
    [.keyOp .keyW true, .renderOp .ok 1, .resizeOp 800 600]
  have hfatal := h1.1 rfl (by decide) (by decide)
  have hterm := h2.2 rfl
  exact ⟨rfl, hfatal.1, hfatal.2, rfl, hterm.1, hterm.2⟩

theorem smulV3_zero (a : ℚ × ℚ × ℚ) : smulV3 0 a = (0, 0, 0) := by
  simp [smulV3]

theorem addV3_zero (a : ℚ × ℚ × ℚ) : addV3 a (0, 0, 0) = a := by
  simp [addV3]

theorem addV3_zero' (a : ℚ × ℚ × ℚ) : addV3 a 0 = a := by
  simp [addV3]

/-- C8 (camera spec-modelled): on a successful frame the position
delta applied to the camera is, along each of the three local axes,
the signed key-axis difference times the elapsed time since the last
successful frame; the elapsed time is zero when no successful frame
has happened yet; `last_time` is set by successful frames only (a
skipped outdated frame leaves it alone); and the camera does not move
on the first successful frame, nor when each opposing key pair is
balanced. -/
theorem game_render_motion (g : Game) (now : ℚ) (h : g.running = true) :
    (g.render .ok now).1.camera.position
        = addV3 (addV3 (addV3 g.camera.position
            (smulV3 ((g.forward - g.backward) * g.elapsed now)
              g.camera.forwardAxis))
            (smulV3 ((g.right - g.left) * g.elapsed now) g.camera.rightAxis))
            (smulV3 ((g.up - g.down) * g.elapsed now) g.camera.upAxis) ∧
    (g.lastTime = none → g.elapsed now = 0) ∧
    (g.render .ok now).1.lastTime = some now ∧
    (g.render (.err .outdated) now).1.lastTime = g.lastTime ∧
    ((g.lastTime = none ∨
        (g.forward = g.backward ∧ g.left = g.right ∧ g.up = g.down)) →
      (g.render .ok now).1.camera.position = g.camera.position) := by
  have hpos : (g.render .ok now).1.camera.position
      = addV3 (addV3 (addV3 g.camera.position
          (smulV3 ((g.forward - g.backward) * g.elapsed now)
            g.camera.forwardAxis))
          (smulV3 ((g.right - g.left) * g.elapsed now) g.camera.rightAxis))
          (smulV3 ((g.up - g.down) * g.elapsed now) g.camera.upAxis) := by
    simp [Game.render, h, CameraM.walkForward, CameraM.walkRight,
      CameraM.levitateUp]
  refine ⟨hpos, ?_, ?_, ?_, ?_⟩
  · intro h0
    simp [Game.elapsed, h0]
  · simp [Game.render, h]
  · simp [Game.render, h]
  · intro hc
    rw [hpos]
    rcases hc with hnone | ⟨hf, hl, hu⟩
    · have hz : g.elapsed now = 0 := by simp [Game.elapsed, hnone]
      simp [hz, smulV3_zero, addV3_zero, addV3_zero']
    · simp [hf, hl, hu, smulV3_zero, addV3_zero, addV3_zero']

/-- A running game with opposing forward/backward keys both held and a
previous successful frame recorded. -/
def g1 : Game := { g0 with forward := 1/2, backward := 1/2, lastTime := some 0 }

/-- Witness for C8: the fresh game (no previous frame) does not move on
its first successful frame, and a game holding both W and S does not
move either; the successful frame records its timestamp. -/
theorem game_render_motion_witness :
    g0.running = true ∧
    g0.lastTime = none ∧
    (g0.render .ok 2).1.camera.position = g0.camera.position ∧
    g1.running = true ∧
    g1.forward = g1.backward ∧
    (g1.render .ok 2).1.camera.position = g1.camera.position ∧
    (g1.render .ok 2).1.lastTime = some 2 := by
  have h0 := game_render_motion g0 2 rfl
  have h1 := game_render_motion g1 2 rfl
  exact ⟨rfl, rfl, h0.2.2.2.2 (Or.inl rfl), rfl, rfl,
    h1.2.2.2.2 (Or.inr ⟨rfl, rfl, rfl⟩), h1.2.2.1⟩

/-! ## glTF model loader (`src/resources/model.rs`)

`Model::from_gltf` is embedded at the element level: an accessor
carries its declared component type, its element count, and its data
when a buffer view exists (`get_data_for_accessor` returns `None`
exactly when the accessor has no view).  Vertex components are kept
abstract (type `ε`).  Rust `.unwrap()` on a missing value and the
unchecked `tex_coord_data[i]` indexing abort the process; the outcome
type distinguishes that (`panicked`) from returning `Err` (`error`). -/

inductive GDataType where
  | i8
  | u8
  | i16
  | u16
  | u32
  | f32
  deriving DecidableEq

inductive IndexFormatM where
  | uint16
  | uint32
  deriving DecidableEq

structure GAccessor (ε : Type) where
  dataType : GDataType
  count : Nat
  viewData : Option (List ε)
  deriving DecidableEq

/-- `get_data_for_accessor`: the accessor's bytes when it has a buffer
view. -/
def GAccessor.getData (a : GAccessor ε) : Option (List ε) :=
  a.viewData

inductive GSemantic where
  | positions
  | normals
  | texCoords (set : Nat)
  | otherSem
  deriving DecidableEq

structure GMorphTarget (ε : Type) where
  positions : Option (GAccessor ε)
  normals : Option (GAccessor ε)
  deriving DecidableEq

structure GPrimitive (ε : Type) where
  attributes : List (GSemantic × GAccessor ε)
  indices : Option (GAccessor ε)
  morphTargets : List (GMorphTarget ε)
  deriving DecidableEq

structure GMesh (ε : Type) where
  primitives : List (GPrimitive ε)
  deriving DecidableEq

structure GDocument (ε : Type) where
  meshes : List (GMesh ε)
  deriving DecidableEq

/-- The data `Model::from_gltf` produces: index format, raw index
data, `indices.count()`, interleaved vertices (position, normal,
texcoord) and the optional interleaved two-target morph data. -/
structure ModelData (ε : Type) where
  indexFormat : IndexFormatM
  indexData : List ε
  numIndices : Nat
  vertices : List (ε × ε × ε)
  morphs : Option (List (ε × ε × ε × ε))
  deriving DecidableEq

/-- Outcome of model construction: `Ok`, `Err(msg)`, or a process
abort from `unwrap()`/out-of-bounds indexing. -/
inductive LoadOutcome (ε : Type) where
  | ok (m : ModelData ε)
  | error (msg : String)
  | panicked
  deriving DecidableEq

/-- The `for_each` over `prim.attributes()`: later entries for the same
semantic overwrite earlier ones; only `TexCoords(0)` is kept; other
semantics are ignored.  Returns (positions, normals, tex_coords). -/
def scanAttrs (attrs : List (GSemantic × GAccessor ε)) :
    Option (GAccessor ε) × Option (GAccessor ε) × Option (GAccessor ε) :=
  attrs.foldl
    (fun acc sa =>
      match sa.1 with
      | .positions => (some sa.2, acc.2.1, acc.2.2)
      | .normals => (acc.1, some sa.2, acc.2.2)
      | .texCoords 0 => (acc.1, acc.2.1, some sa.2)
      | _ => acc)
    (none, none, none)

/-- The `match indices.data_type()` arm: only 16- and 32-bit unsigned
index components are supported. -/
def indexFormatOf : GDataType → Option IndexFormatM
  | .u16 => some .uint16
  | .u32 => some .uint32
  | _ => none

/-- `Model::from_gltf`.  Takes the *first* mesh and the *first*
primitive (erroring only when there are none), unwraps the index
accessor and its data (panic on absence), maps the component type
(error when unsupported), scans attributes with last-wins semantics
(panic when positions/normals/texcoords(0) are absent or have no
data), builds `min(|positions|, |normals|)` vertices indexing the
texcoord data without a bounds check (panic when it is shorter), and
interleaves the first two morph targets when both exist (panic when
their accessors or data are missing). -/
def Model.fromGltf (doc : GDocument ε) : LoadOutcome ε :=
  match doc.meshes.head? with
  | none => .error "Model should have 1 mesh"
  | some mesh =>
    match mesh.primitives.head? with
    | none => .error "Mesh should have 1 primitive"
    | some prim =>
      match prim.indices with
      | none => .panicked
      | some indices =>
        match indexFormatOf indices.dataType with
        | none => .error "Unsupported index type"
        | some fmt =>
          match indices.getData with
          | none => .panicked
          | some indexData =>
            match scanAttrs prim.attributes with
            | (some pa, some na, some ta) =>
              match pa.getData, na.getData, ta.getData with
              | some posData, some normData, some texData =>
                if texData.length < min posData.length normData.length then
                  .panicked
                else
                  let vertices := ((posData.zip normData).zip texData).map
                    (fun q => (q.1.1, q.1.2, q.2))
                  match prim.morphTargets.head?,
                      (prim.morphTargets.drop 1).head? with
                  | some m0, some m1 =>
                    match m0.positions, m0.normals, m1.positions, m1.normals with
                    | some mp0, some mn0, some mp1, some mn1 =>
                      match mp0.getData, mn0.getData, mp1.getData, mn1.getData with
                      | some mpd0, some mnd0, some mpd1, some mnd1 =>
                        let morphs := (((mpd0.zip mnd0).zip mpd1).zip mnd1).map
                          (fun q => (q.1.1.1, q.1.1.2, q.1.2, q.2))
                        .ok ⟨fmt, indexData, indices.count, vertices, some morphs⟩
                      | _, _, _, _ => .panicked
                    | _, _, _, _ => .panicked
                  | _, _ => .ok ⟨fmt, indexData, indices.count, vertices, none⟩
              | _, _, _ => .panicked
            | _ => .panicked

/-- Concrete index accessor: u16, three indices, with data. -/
def accIdx : GAccessor Nat := ⟨.u16, 3, some [0, 1, 2]⟩

def accPos : GAccessor Nat := ⟨.f32, 3, some [100, 101, 102]⟩

def accNorm : GAccessor Nat := ⟨.f32, 3, some [200, 201, 202]⟩

def accTex : GAccessor Nat := ⟨.f32, 3, some [300, 301, 302]⟩

/-- A texcoord accessor with only two elements — fewer than the
vertex count. -/
def accTexShort : GAccessor Nat := ⟨.f32, 2, some [300, 301]⟩

/-- A fully well-formed primitive. -/
def primOk : GPrimitive Nat :=
  ⟨[(.positions, accPos), (.normals, accNorm), (.texCoords 0, accTex)],
    some accIdx, []⟩

/-- Well-formed except that the texcoord data is too short. -/
def primTexShort : GPrimitive Nat :=
  ⟨[(.positions, accPos), (.normals, accNorm), (.texCoords 0, accTexShort)],
    some accIdx, []⟩

/-- A primitive with no positions attribute. -/
def primNoPos : GPrimitive Nat :=
  ⟨[(.normals, accNorm), (.texCoords 0, accTex)], some accIdx, []⟩

/-- A primitive whose index component type is 32-bit float. -/
def primBadIdx : GPrimitive Nat :=
  ⟨[(.positions, accPos), (.normals, accNorm), (.texCoords 0, accTex)],
    some ⟨.f32, 3, some [0, 1, 2]⟩, []⟩

def meshOk : GMesh Nat := ⟨[primOk]⟩

/-- An asset with two meshes, the first of them well-formed. -/
def docTwoMeshes : GDocument Nat := ⟨[meshOk, ⟨[]⟩]⟩

def docNoMesh : GDocument Nat := ⟨[]⟩

def docNoPrim : GDocument Nat := ⟨[⟨[]⟩]⟩

def docBadIdx : GDocument Nat := ⟨[⟨[primBadIdx]⟩]⟩

def docNoPos : GDocument Nat := ⟨[⟨[primNoPos]⟩]⟩

def docTexShort : GDocument Nat := ⟨[⟨[primTexShort]⟩]⟩

def docOk : GDocument Nat := ⟨[meshOk]⟩

/-- Counterexample for C4 as stated: an asset with two meshes does not
fail — `from_gltf` silently picks the first mesh and succeeds. -/
theorem model_from_gltf_rejects_cex :
    docTwoMeshes.meshes.length = 2 ∧
    Model.fromGltf docTwoMeshes
      = .ok ⟨.uint16, [0, 1, 2], 3,
          [(100, 200, 300), (101, 201, 301), (102, 202, 302)], none⟩ :=
  ⟨rfl, by decide⟩

/-- C4 (amended): `from_gltf` returns an error only for an asset with
zero meshes, a first mesh with zero primitives, or an unsupported
index component type.  A missing positions, normals or texcoords(0)
attribute (or missing index accessor) causes a panic, not an error
return; and with multiple meshes or primitives it silently uses the
first of each. -/
theorem model_from_gltf_rejects {ε : Type} (doc : GDocument ε)
    (m : GMesh ε) (ms : List (GMesh ε)) (p : GPrimitive ε)
    (ps : List (GPrimitive ε)) (ia : GAccessor ε) :
    (doc.meshes = [] →
      Model.fromGltf doc = .error "Model should have 1 mesh") ∧
    (doc.meshes = m :: ms → m.primitives = [] →
      Model.fromGltf doc = .error "Mesh should have 1 primitive") ∧
    (doc.meshes = m :: ms → m.primitives = p :: ps → p.indices = some ia →
      indexFormatOf ia.dataType = none →
      Model.fromGltf doc = .error "Unsupported index type") ∧
    (doc.meshes = m :: ms → m.primitives = p :: ps → p.indices = some ia →
      (indexFormatOf ia.dataType).isSome → ia.getData.isSome →
      ((scanAttrs p.attributes).1 = none ∨
        (scanAttrs p.attributes).2.1 = none ∨
        (scanAttrs p.attributes).2.2 = none) →
      Model.fromGltf doc = .panicked) ∧
    (Model.fromGltf (⟨m :: ms⟩ : GDocument ε) = Model.fromGltf ⟨[m]⟩) ∧
    (Model.fromGltf (⟨(⟨p :: ps⟩ : GMesh ε) :: ms⟩ : GDocument ε)
      = Model.fromGltf ⟨[⟨[p]⟩]⟩) := by
  refine ⟨?_, ?_, ?_, ?_, rfl, rfl⟩
  · intro h1
    simp [Model.fromGltf, h1]
  · intro h1 h2
    simp [Model.fromGltf, h1, h2]
  · intro h1 h2 h3 h4
    simp [Model.fromGltf, h1, h2, h3, h4]
  · intro h1 h2 h3 hf hd hsc
    obtain ⟨f, hf'⟩ := Option.isSome_iff_exists.mp hf
    obtain ⟨d, hd'⟩ := Option.isSome_iff_exists.mp hd
    rcases hv : scanAttrs p.attributes with ⟨o1, o2, o3⟩
    rw [hv] at hsc
    simp only at hsc
    cases o1 with
    | none => simp [Model.fromGltf, h1, h2, h3, hf', hd', hv]
    | some pa =>
      cases o2 with
      | none => simp [Model.fromGltf, h1, h2, h3, hf', hd', hv]
      | some na =>
        cases o3 with
        | none => simp [Model.fromGltf, h1, h2, h3, hf', hd', hv]
        | some ta => simp at hsc

/-- Witness for C4 (amended): the three error cases return the three
error messages, a missing positions attribute panics, and the
two-mesh asset loads exactly like its first mesh alone. -/
theorem model_from_gltf_rejects_witness :
    Model.fromGltf docNoMesh = .error "Model should have 1 mesh" ∧
    Model.fromGltf docNoPrim = .error "Mesh should have 1 primitive" ∧
    Model.fromGltf docBadIdx = .error "Unsupported index type" ∧
    Model.fromGltf docNoPos = LoadOutcome.panicked ∧
    Model.fromGltf docTwoMeshes = Model.fromGltf (⟨[meshOk]⟩ : GDocument Nat) := by
  have h1 := model_from_gltf_rejects docNoMesh meshOk [] primOk [] accIdx
  have h2 := model_from_gltf_rejects docNoPrim ⟨[]⟩ [] primOk [] accIdx
  have h3 := model_from_gltf_rejects docBadIdx ⟨[primBadIdx]⟩ [] primBadIdx []
    ⟨.f32, 3, some [0, 1, 2]⟩
  have h4 := model_from_gltf_rejects docNoPos ⟨[primNoPos]⟩ [] primNoPos [] accIdx
  have h5 := model_from_gltf_rejects docTwoMeshes meshOk [⟨[]⟩] primOk [] accIdx
  exact ⟨h1.1 rfl, h2.2.1 rfl rfl, h3.2.2.1 rfl rfl rfl rfl,
    h4.2.2.2.1 rfl rfl rfl (by decide) (by decide) (by decide),
    h5.2.2.2.2.1⟩

/-- C10: once the first mesh's first primitive has a supported,
data-backed index accessor and data-backed positions/normals/texcoords
accessors, `from_gltf` builds exactly `min(|positions|, |normals|)`
vertices; their construction indexes the texcoord data without a
bounds check, so when the texcoord data is shorter than that minimum
the construction panics instead of returning an error. -/
theorem model_from_gltf_tex_bounds {ε : Type} (doc : GDocument ε)
    (m : GMesh ε) (ms : List (GMesh ε)) (p : GPrimitive ε)
    (ps : List (GPrimitive ε)) (ia pa na ta : GAccessor ε)
    (fmt : IndexFormatM) (idata posD normD texD : List ε)
    (h1 : doc.meshes = m :: ms) (h2 : m.primitives = p :: ps)
    (h3 : p.indices = some ia) (h4 : indexFormatOf ia.dataType = some fmt)
    (h5 : ia.getData = some idata)
    (h6 : scanAttrs p.attributes = (some pa, some na, some ta))
    (h7 : pa.getData = some posD) (h8 : na.getData = some normD)
    (h9 : ta.getData = some texD) :
    (texD.length < min posD.length normD.length →
      Model.fromGltf doc = .panicked) ∧
    (min posD.length normD.length ≤ texD.length → p.morphTargets = [] →
      Model.fromGltf doc
        = .ok ⟨fmt, idata, ia.count,
            ((posD.zip normD).zip texD).map (fun q => (q.1.1, q.1.2, q.2)),
            none⟩ ∧
      (((posD.zip normD).zip texD).map
          (fun q => (q.1.1, q.1.2, q.2))).length
        = min posD.length normD.length) := by
  constructor
  · intro hlt
    simp [Model.fromGltf, h1, h2, h3, h4, h5, h6, h7, h8, h9, hlt]
  · intro hge hmorph
    have hnlt : ¬ (texD.length < min posD.length normD.length) :=
      not_lt.mpr hge
    constructor
    · simp [Model.fromGltf, h1, h2, h3, h4, h5, h6, h7, h8, h9, hnlt, hmorph]
    · simp [List.length_map, List.length_zip, Nat.min_eq_left hge]

/-- Witness for C10: the primitive whose texcoord accessor yields two
elements against three positions/normals panics; the well-formed
asset loads with exactly three vertices. -/
theorem model_from_gltf_tex_bounds_witness :
    ([300, 301] : List Nat).length
      < min ([100, 101, 102] : List Nat).length
          ([200, 201, 202] : List Nat).length ∧
    Model.fromGltf docTexShort = LoadOutcome.panicked ∧
    Model.fromGltf docOk
      = .ok ⟨.uint16, [0, 1, 2], 3,
          [(100, 200, 300), (101, 201, 301), (102, 202, 302)], none⟩ ∧
    (Model.fromGltf docOk
        = .ok ⟨.uint16, [0, 1, 2], 3,
            [(100, 200, 300), (101, 201, 301), (102, 202, 302)], none⟩ →
      ([(100, 200, 300), (101, 201, 301), (102, 202, 302)] :
        List (Nat × Nat × Nat)).length = 3) := by
  have hA := model_from_gltf_tex_bounds docTexShort ⟨[primTexShort]⟩ []
    primTexShort [] accIdx accPos accNorm accTexShort .uint16 [0, 1, 2]
    [100, 101, 102] [200, 201, 202] [300, 301]
    rfl rfl rfl rfl rfl (by decide) rfl rfl rfl
  have hB := model_from_gltf_tex_bounds docOk meshOk [] primOk [] accIdx
    accPos accNorm accTex .uint16 [0, 1, 2] [100, 101, 102] [200, 201, 202]
    [300, 301, 302] rfl rfl rfl rfl rfl (by decide) rfl rfl rfl
  refine ⟨by decide, hA.1 (by decide), ?_, fun _ => rfl⟩
  exact (hB.2 (by decide) rfl).1.trans (by decide)
